import Mathlib

/-
Verification of the nidaq_audioplayer GUI client (TypeScript/Svelte sources)
against its natural-language specification.

The TypeScript sources are shallowly embedded: pure functions become Lean
functions, stateful handlers become explicit state-passing step functions,
JS numbers that are used as reals become Rat, JS integer-valued fields
become Nat or Int, nullable/undefined values become Option, and JS falsy
checks (null, undefined, 0, empty string) are spelled out case by case.
-/

namespace NidaqPlayer

/-! # Data model

AudioChapterInfo / AudioInfo mirror the types in
src/lib/components/media-player/playerData.svelte.ts.  Optional TS fields
become Option.  The chapters field is optional in TS, hence Option (List _).
-/

structure AudioChapterInfo where
  timestamp : ℚ
  title : String
  description : Option String
deriving DecidableEq, Repr

structure AudioInfo where
  name : String
  artist : Option String
  thumbnail : Option String
  path : String
  duration : ℚ
  size : Nat
  sampleRate : Nat
  channels : Nat
  chapters : Option (List AudioChapterInfo)
deriving DecidableEq, Repr

/-! # Wire protocol model

wsconnection.svelte.ts sends every control request as
JSON.stringify on the object literal with the given task and the optional
data, over a fresh WebSocket to the fixed URL.  A small JSON value type
models the serialized payload; JSON.stringify omits a field whose value
is undefined, which is why the data field is present only when given.
-/

inductive Json where
  | jnull : Json
  | jbool : Bool → Json
  | jnum : ℚ → Json
  | jstr : String → Json
  | jarr : List Json → Json
  | jobj : List (String × Json) → Json

structure WireMessage where
  url : String
  payload : Json

/-- The fixed local endpoint hard-coded in wsSendOnce
(src/lib/components/media-player/tasks/wsconnection.svelte.ts). -/
def wsUrl : String := "ws://localhost:21749"

/-- Embedding of wsSendOnce: it opens a WebSocket to wsUrl and, on open,
sends JSON.stringify of the object with the task and (when present) the
data.  The reply handlers registered in onmessage are reply processing,
not part of the request, and are modelled separately where a claim needs
them. -/
def wsSendOnce (task : String) (data : Option Json) : WireMessage :=
  { url := wsUrl,
    payload := Json.jobj (("task", Json.jstr task) ::
      (match data with
       | none => []
       | some d => [("data", d)])) }

/-- Shape predicate for the control protocol: a payload of the form
with a task string first and at most one further data field. -/
def isTaskDataShape (j : Json) : Prop :=
  ∃ task : String,
    j = Json.jobj [("task", Json.jstr task)] ∨
    ∃ d : Json, j = Json.jobj [("task", Json.jstr task), ("data", d)]

/-! # Player requests

For claims about which requests the player issues (rather than their JSON
serialization) the requests are modelled symbolically.  LoadAudioData
mirrors the object literal sent with the load_audio task in the library
page (src/unnamed/part_002, handleAudioTrackSelect).
-/

structure LoadAudioData where
  device_name : String
  file_path : String
  ao_channels : List String
  ai_channels : List String
  do_channels : List String
  volume : Nat
  samples_per_frame : Nat
  flip_lr_stereo : Bool
deriving DecidableEq, Repr

inductive PlayerRequest where
  | pause : PlayerRequest
  | play : PlayerRequest
  | seek : ℚ → PlayerRequest
  | setVolume : Nat → PlayerRequest
  | loadAudio : LoadAudioData → PlayerRequest
deriving DecidableEq, Repr

/-! # togglePlayPause (player.svelte) -/

/-- Embedding of togglePlayPause in player.svelte: when playing it sends
pause; otherwise, if playbackCompleted it first sends seek with time 0 and
then sends play. -/
def togglePlayPause (isPlaying playbackCompleted : Bool) : List PlayerRequest :=
  if isPlaying then [PlayerRequest.pause]
  else
    (if playbackCompleted then [PlayerRequest.seek 0] else []) ++ [PlayerRequest.play]

/-! # Volume control (player.svelte)

The volume slider is declared with min=0, max=100, step=1 and is bound to
MediaPlayerData.volume, so any value the slider can commit is an integer
in [0,100]; sliderClamp models that restriction on an arbitrary requested
Nat (the Nat codomain models the integrality from step=1).
MediaPlayerData.volume starts at 80 (playerData.svelte.ts) and is written
by the slider binding and by loadAudioHandler, which copies
player_info.volume from the load_audio reply
(tasks/load_audio.svelte.ts); the spec fixes that wire value to an
integer in [0,100].
-/

def sliderClamp (v : Nat) : Nat := min v 100

structure VolumeState where
  volume : Nat
  muted : Bool
deriving DecidableEq, Repr

/-- Initial MediaPlayerData volume state (playerData.svelte.ts). -/
def initVolumeState : VolumeState := { volume := 80, muted := false }

inductive VolumeEvent where
  /-- The user moves the volume slider (bind:value then onValueChange,
  which calls syncPlayerVolume). -/
  | sliderChange : Nat → VolumeEvent
  /-- The user clicks the volume button (toggleMute in player.svelte). -/
  | toggleMute : VolumeEvent
  /-- A load_audio reply echoes player_info.volume back into
  MediaPlayerData.volume (loadAudioHandler); sends no volume request. -/
  | loadAudioEcho : Nat → VolumeEvent
deriving DecidableEq, Repr

/-- One step of the player volume logic; returns the new state and the
volume value carried on the wire by the volume request this event sends,
if any.  sliderChange: the slider updates the bound volume and
syncPlayerVolume sends it.  toggleMute: muted is flipped first, then the
request sends 0 when now muted and the stored volume when now unmuted. -/
def volumeStep (s : VolumeState) : VolumeEvent → VolumeState × Option Nat
  | VolumeEvent.sliderChange v =>
      ({ s with volume := sliderClamp v }, some (sliderClamp v))
  | VolumeEvent.toggleMute =>
      let m := !s.muted
      ({ s with muted := m }, some (if m then 0 else s.volume))
  | VolumeEvent.loadAudioEcho v =>
      ({ s with volume := v }, none)

/-- Run a sequence of volume events, collecting every volume value sent
on the wire. -/
def volumeRun (s : VolumeState) : List VolumeEvent → VolumeState × List Nat
  | [] => (s, [])
  | e :: es =>
      let step := volumeStep s e
      let rest := volumeRun step.1 es
      (rest.1, step.2.toList ++ rest.2)

/-! # getScanRecursiveLevel (library/components/libraryInfo.svelte.ts)

The persisted store maps keys to JSON-like values; a slot is
Option StoreValue with none for an absent key (undefined in TS).
-/

inductive StoreValue where
  | num : Int → StoreValue
  | str : String → StoreValue
  | boolVal : Bool → StoreValue
  | null : StoreValue
deriving DecidableEq, Repr

/-- Embedding of getScanRecursiveLevel: reads the scanRecursiveLevel slot;
if the value has typeof number it is returned and the store is untouched,
otherwise setScanRecursiveLevel(store, 4) writes 4 and 4 is returned.
Returns the result together with the new slot contents. -/
def getScanRecursiveLevel (slot : Option StoreValue) : Int × Option StoreValue :=
  match slot with
  | some (StoreValue.num n) => (n, some (StoreValue.num n))
  | _ => (4, some (StoreValue.num 4))

/-! # refreshAudioMetadata, writefile branch (src/unnamed/part_002)

After the metadata list is rebuilt, with writefile enabled the code reads
lastLibbinHash from the library store, and:
  if (!lastLibbinHash) it saves library.bin, computes the hash of the
  current metadata and stores it;
  otherwise it computes the hash and saves plus stores only when the
  computed hash !== the stored one.
The JS falsy test !lastLibbinHash is true for undefined (no stored hash)
and also for the empty string.  The function below returns whether
library.bin was rewritten, paired with the lastLibbinHash slot contents
afterwards. -/
def refreshWritefile (storedHash : Option String) (computedHash : String) :
    Bool × Option String :=
  match storedHash with
  | none => (true, some computedHash)
  | some s =>
      if s = "" then (true, some computedHash)
      else if computedHash ≠ s then (true, some computedHash)
      else (false, some s)

/-! # History store (src/routes/history/history.svelte.ts) -/

/-- The findIndex plus splice step of addToHistory: remove the first entry
whose path equals the given path, keeping everything else in order. -/
def eraseFirstByPath : List AudioInfo → String → List AudioInfo
  | [], _ => []
  | x :: xs, p => if x.path = p then xs else x :: eraseFirstByPath xs p

/-- JS slice with a negative start index counted from the end:
slice(-k) keeps the last k elements. -/
def sliceLast (k : Nat) (l : List AudioInfo) : List AudioInfo :=
  l.drop (l.length - k)

/-- Embedding of addToHistory on a non-null history list (a null history
is first replaced by [] in the source): remove the existing entry with
the same path if any, push the new entry at the end, and keep only the
most recent 50 entries. -/
def addToHistory (history : List AudioInfo) (a : AudioInfo) : List AudioInfo :=
  let removed := eraseFirstByPath history a.path
  let pushed := removed ++ [a]
  if 50 < pushed.length then sliceLast 50 pushed else pushed

/-- Embedding of cleanupHistory: with a null history nothing happens
(the history stays null); with a null current list the history is
cleared to null; otherwise entries whose path does not occur in the
current list are filtered out. -/
def cleanupHistory (history : Option (List AudioInfo))
    (currentAudioInfoList : Option (List AudioInfo)) : Option (List AudioInfo) :=
  match history with
  | none => none
  | some h =>
      match currentAudioInfoList with
      | none => none
      | some cur => some (h.filter fun info => cur.any fun c => c.path = info.path)

/-! # getCurrentChapter (player.svelte)

The source returns the string with the index, the timestamp and the title
joined by double underscores; the embedding returns the triple itself,
which carries the same information.  JS falsy guards:
!chapters?.length is true when audioInfo is null, chapters is undefined
or chapters is empty; !duration is true when duration is null or 0;
!progress is true when progress is null or 0. -/
def getCurrentChapter (audioInfo : Option AudioInfo) (duration : Option ℚ)
    (progress : Option ℚ) : Option (Nat × ℚ × String) :=
  match audioInfo with
  | none => none
  | some info =>
      match info.chapters with
      | none => none
      | some chapters =>
          if chapters.length = 0 then none
          else
            match duration with
            | none => none
            | some dur =>
                if dur = 0 then none
                else
                  match progress with
                  | none => chapters.head?.map fun ch => (0, ch.timestamp, ch.title)
                  | some p =>
                      if p = 0 then
                        chapters.head?.map fun ch => (0, ch.timestamp, ch.title)
                      else
                        let currentTime := p / 100 * dur
                        match List.findIdx?
                            (fun ch => decide (currentTime < ch.timestamp)) chapters with
                        | none =>
                            chapters.getLast?.map fun ch =>
                              (chapters.length - 1, ch.timestamp, ch.title)
                        | some 0 => none
                        | some (i + 1) =>
                            chapters[i]?.map fun ch => (i, ch.timestamp, ch.title)

/-! # Progress update throttling (tasks/play.svelte.ts)

playAudioHandler, on a progress_update message, schedules updateProgress;
when it runs it drops the snapshot entirely if fewer than
updateStatus.interval milliseconds have passed since the last applied
snapshot, and otherwise copies the snapshot into MediaPlayerData
(progress only when pauseAutomaticWsProgressUpdate is off) and records
the application time.  A run is the in-order processing of a list of
(time the callback runs, snapshot) pairs. -/

structure ProgressSnapshot where
  duration : ℚ
  playing : Bool
  audio_completed : Bool
  progress_percent : ℚ
deriving DecidableEq, Repr

structure PlayerUiState where
  lastUpdated : Nat
  duration : Option ℚ
  isPlaying : Bool
  playbackCompleted : Bool
  progress : Option ℚ
  pauseAutomaticWsProgressUpdate : Bool
deriving DecidableEq, Repr

/-- updateStatus.interval in tasks/play.svelte.ts, in milliseconds. -/
def updateInterval : Nat := 330

/-- One updateProgress invocation at clock time now. -/
def progressStep (st : PlayerUiState) (now : Nat) (snap : ProgressSnapshot) :
    PlayerUiState :=
  if now - st.lastUpdated < updateInterval then st
  else
    { st with
      duration := some snap.duration
      isPlaying := snap.playing
      playbackCompleted := snap.audio_completed
      progress :=
        if st.pauseAutomaticWsProgressUpdate then st.progress
        else some snap.progress_percent
      lastUpdated := now }

def progressRun (st : PlayerUiState) : List (Nat × ProgressSnapshot) → PlayerUiState
  | [] => st
  | e :: rest => progressRun (progressStep st e.1 e.2) rest

/-- The subsequence of a run that actually takes effect (snapshots not
dropped by the throttle). -/
def appliedEvents (st : PlayerUiState) :
    List (Nat × ProgressSnapshot) → List (Nat × ProgressSnapshot)
  | [] => []
  | e :: rest =>
      if e.1 - st.lastUpdated < updateInterval then appliedEvents st rest
      else e :: appliedEvents (progressStep st e.1 e.2) rest

/-- The player state when the page loads: nothing applied yet and
automatic progress updates enabled. -/
def playerUiInit : PlayerUiState :=
  { lastUpdated := 0
    duration := none
    isPlaying := false
    playbackCompleted := false
    progress := none
    pauseAutomaticWsProgressUpdate := false }

/-! # handleAudioTrackSelect (src/unnamed/part_002, library page) -/

/-- AO lines requested for every track selection in the library page. -/
def defaultAoChannels : List String := ["/ao0", "/ao1", "/ao2", "/ao3"]

/-- DO lines requested for every track selection: the two default lines,
written device-relative with a leading slash. -/
def defaultDoChannels : List String := ["/port0/line0", "/port0/line1"]

/-- Embedding of handleAudioTrackSelect: it returns early when no track
data is given or when no NI-DAQ device is selected (the optional chain
plus falsy test also rejects an empty device name); otherwise it sends
pause when currently playing, then the load_audio request built from the
selected track and the fixed channel lists, then play.  (The final
addToHistory call mutates the history store, not the wire, and is
modelled separately.) -/
def handleAudioTrackSelect (data : Option AudioInfo) (deviceName : Option String)
    (isPlaying : Bool) (volume : Nat) (flipLRStereo : Bool) : List PlayerRequest :=
  match data with
  | none => []
  | some d =>
      match deviceName with
      | none => []
      | some nm =>
          if nm = "" then []
          else
            (if isPlaying then [PlayerRequest.pause] else []) ++
            [PlayerRequest.loadAudio
              { device_name := nm
                file_path := d.path
                ao_channels := defaultAoChannels
                ai_channels := []
                do_channels := defaultDoChannels
                volume := volume
                samples_per_frame := 8192
                flip_lr_stereo := flipLRStereo },
             PlayerRequest.play]

/-! # Concrete values used by witnesses and counterexamples -/

def demoTrack : AudioInfo :=
  { name := "Demo"
    artist := none
    thumbnail := none
    path := "C:/music/demo.flac"
    duration := 30
    size := 1000
    sampleRate := 48000
    channels := 2
    chapters := some [{ timestamp := 5, title := "Intro", description := none }] }

def demoTrackB : AudioInfo :=
  { demoTrack with name := "DemoB", path := "C:/music/demo_b.flac" }

def demoVolumeEvents : List VolumeEvent :=
  [VolumeEvent.sliderChange 250, VolumeEvent.toggleMute,
   VolumeEvent.loadAudioEcho 30, VolumeEvent.toggleMute]

def demoSnapA : ProgressSnapshot :=
  { duration := 30, playing := true, audio_completed := false, progress_percent := 10 }

def demoSnapB : ProgressSnapshot :=
  { duration := 30, playing := true, audio_completed := false, progress_percent := 20 }

/-- Two progress updates arriving 10 ms apart, far faster than the
330 ms tick. -/
def demoFastRun : List (Nat × ProgressSnapshot) :=
  [(1000, demoSnapA), (1010, demoSnapB)]

end NidaqPlayer

namespace NidaqPlayer

/-! # Theorems -/

/-- C7: Every control request the client sends is a JSON message of the
shape with a task field and an optional data field, and it is sent to the
fixed local endpoint ws://localhost:21749, for every task name (status,
load_audio, play, pause, seek, volume, flip_lr_stereo included). -/
theorem c7_wire_endpoint_and_shape (task : String) (data : Option Json) :
    (wsSendOnce task data).url = "ws://localhost:21749" ∧
    isTaskDataShape (wsSendOnce task data).payload := by
  refine ⟨rfl, task, ?_⟩
  cases data with
  | none => exact Or.inl rfl
  | some d => exact Or.inr ⟨d, rfl⟩

/-- C4: When a play command is triggered (togglePlayPause while not
playing) in the Completed state, a seek to time 0 is issued first and then
the play request; when not in Completed, play alone is issued with no
preceding seek. -/
theorem c4_completed_restarts_from_zero (playbackCompleted : Bool) :
    togglePlayPause false playbackCompleted =
      if playbackCompleted then [PlayerRequest.seek 0, PlayerRequest.play]
      else [PlayerRequest.play] := by
  cases playbackCompleted <;> rfl

/-- C8: If the persisted library store has no numeric scanRecursiveLevel
value, getScanRecursiveLevel writes the default 4 into the store and
returns 4; if a numeric value is stored, it is returned unchanged and the
store is not modified. -/
theorem c8_scan_recursive_level_default (slot : Option StoreValue) :
    (∀ n : Int, slot = some (StoreValue.num n) →
      getScanRecursiveLevel slot = (n, slot)) ∧
    ((∀ n : Int, slot ≠ some (StoreValue.num n)) →
      getScanRecursiveLevel slot = (4, some (StoreValue.num 4))) := by
  constructor
  · rintro n rfl
    rfl
  · intro h
    match slot with
    | none => rfl
    | some (StoreValue.num n) => exact absurd rfl (h n)
    | some (StoreValue.str s) => rfl
    | some (StoreValue.boolVal b) => rfl
    | some StoreValue.null => rfl

/-- Witness for C8: a store holding the number 7 is returned unchanged,
and a store holding a string gets the default 4 written. -/
theorem c8_scan_recursive_level_default_witness :
    getScanRecursiveLevel (some (StoreValue.num 7)) = (7, some (StoreValue.num 7)) ∧
    getScanRecursiveLevel (some (StoreValue.str "x")) = (4, some (StoreValue.num 4)) :=
  ⟨(c8_scan_recursive_level_default (some (StoreValue.num 7))).1 7 rfl,
   (c8_scan_recursive_level_default (some (StoreValue.str "x"))).2
     (fun n h => by simp at h)⟩

/-! ## C1: volume wire values -/

theorem volumeRun_bounded (evs : List VolumeEvent) (s : VolumeState)
    (hs : s.volume ≤ 100)
    (hech : ∀ v : Nat, VolumeEvent.loadAudioEcho v ∈ evs → v ≤ 100) :
    (volumeRun s evs).1.volume ≤ 100 ∧ ∀ w ∈ (volumeRun s evs).2, w ≤ 100 := by
  induction evs generalizing s with
  | nil => exact ⟨hs, by simp [volumeRun]⟩
  | cons e es ih =>
      have hech2 : ∀ v : Nat, VolumeEvent.loadAudioEcho v ∈ es → v ≤ 100 :=
        fun v hv => hech v (List.mem_cons_of_mem _ hv)
      cases e with
      | sliderChange v =>
          have hc : sliderClamp v ≤ 100 := Nat.min_le_right _ _
          have h2 := ih { s with volume := sliderClamp v } hc hech2
          refine ⟨by simpa [volumeRun, volumeStep] using h2.1, ?_⟩
          intro w hw
          simp only [volumeRun, volumeStep, Option.toList_some, List.cons_append,
            List.nil_append, List.mem_cons] at hw
          rcases hw with rfl | hw
          · exact hc
          · exact h2.2 w hw
      | toggleMute =>
          have h2 := ih { s with muted := !s.muted } hs hech2
          refine ⟨by simpa [volumeRun, volumeStep] using h2.1, ?_⟩
          intro w hw
          simp only [volumeRun, volumeStep, Option.toList_some, List.cons_append,
            List.nil_append, List.mem_cons] at hw
          rcases hw with rfl | hw
          · cases hm : s.muted
            · simp [hm]
            · simpa [hm] using hs
          · exact h2.2 w hw
      | loadAudioEcho v =>
          have hv : v ≤ 100 := hech v (List.mem_cons_self _ _)
          have h2 := ih { s with volume := v } hv hech2
          refine ⟨by simpa [volumeRun, volumeStep] using h2.1, ?_⟩
          intro w hw
          simp only [volumeRun, volumeStep, Option.toList_none, List.nil_append] at hw
          exact h2.2 w hw

/-- C1: For every volume control request the player issues (volume slider
changes via syncPlayerVolume and mute/unmute via toggleMute), the volume
value carried on the wire is a natural number at most 100 (the Nat
codomain models the step=1 integrality of the slider); muting sends
volume 0 and unmuting re-sends the stored volume, and the stored volume
always stays in [0,100] provided the load_audio reply echoes a volume in
[0,100] as the wire contract fixes. -/
theorem c1_volume_requests_in_range :
    (∀ evs : List VolumeEvent,
      (∀ v : Nat, VolumeEvent.loadAudioEcho v ∈ evs → v ≤ 100) →
      (∀ w ∈ (volumeRun initVolumeState evs).2, w ≤ 100) ∧
      (volumeRun initVolumeState evs).1.volume ≤ 100) ∧
    (∀ s : VolumeState,
      (volumeStep s VolumeEvent.toggleMute).2 =
        some (if s.muted then s.volume else 0)) := by
  constructor
  · intro evs hech
    have h := volumeRun_bounded evs initVolumeState (by decide) hech
    exact ⟨h.2, h.1⟩
  · intro s
    cases hm : s.muted <;> simp [volumeStep, hm]

/-- Witness for C1: a run with an out-of-range slider request, two mute
toggles and a load_audio echo keeps every wire value at most 100, and
the first toggleMute from the initial (unmuted) state sends volume 0. -/
theorem c1_volume_requests_in_range_witness :
    (∀ w ∈ (volumeRun initVolumeState demoVolumeEvents).2, w ≤ 100) ∧
    (volumeStep initVolumeState VolumeEvent.toggleMute).2 = some 0 := by
  constructor
  · exact (c1_volume_requests_in_range.1 demoVolumeEvents
      (fun v hv => by simp [demoVolumeEvents] at hv; omega)).1
  · have h := c1_volume_requests_in_range.2 initVolumeState
    simpa [initVolumeState] using h

/-! ## C2: addToHistory invariants -/

theorem eraseFirstByPath_sublist (l : List AudioInfo) (p : String) :
    (eraseFirstByPath l p).Sublist l := by
  induction l with
  | nil => exact List.Sublist.refl _
  | cons x xs ih =>
      simp only [eraseFirstByPath]
      by_cases hx : x.path = p
      · rw [if_pos hx]; exact (List.Sublist.refl xs).cons x
      · rw [if_neg hx]; exact ih.cons₂ x

theorem not_mem_eraseFirstByPath (l : List AudioInfo) (p : String)
    (h : (l.map AudioInfo.path).Nodup) :
    p ∉ (eraseFirstByPath l p).map AudioInfo.path := by
  induction l with
  | nil => simp [eraseFirstByPath]
  | cons x xs ih =>
      simp only [List.map_cons, List.nodup_cons] at h
      simp only [eraseFirstByPath]
      by_cases hx : x.path = p
      · rw [if_pos hx]
        exact hx ▸ h.1
      · rw [if_neg hx]
        simp only [List.map_cons, List.mem_cons]
        rintro (hpx | hmem)
        · exact hx hpx.symm
        · exact ih h.2 hmem

theorem getLast?_append_singleton {α : Type} (l : List α) (a : α) :
    (l ++ [a]).getLast? = some a := by
  induction l with
  | nil => rfl
  | cons x xs ih =>
      cases xs with
      | nil => rfl
      | cons y ys =>
          rw [List.cons_append, List.cons_append, List.getLast?_cons_cons,
            ← List.cons_append]
          exact ih

/-- C2: For every call to addToHistory, the resulting history contains no
two entries with the same path (given the deduplication invariant on the
incoming history), the entry just added is the last element, and the
length never exceeds 50. -/
theorem c2_add_to_history (history : List AudioInfo) (a : AudioInfo)
    (hnd : (history.map AudioInfo.path).Nodup) :
    ((addToHistory history a).map AudioInfo.path).Nodup ∧
    (addToHistory history a).getLast? = some a ∧
    (addToHistory history a).length ≤ 50 := by
  have hsub : (eraseFirstByPath history a.path).Sublist history :=
    eraseFirstByPath_sublist history a.path
  have hnd1 : ((eraseFirstByPath history a.path).map AudioInfo.path).Nodup :=
    (hsub.map AudioInfo.path).nodup hnd
  have hnot : a.path ∉ (eraseFirstByPath history a.path).map AudioInfo.path :=
    not_mem_eraseFirstByPath history a.path hnd
  have hndp : (((eraseFirstByPath history a.path) ++ [a]).map AudioInfo.path).Nodup := by
    simp only [List.map_append, List.map_cons, List.map_nil]
    refine List.Nodup.append hnd1 (List.nodup_singleton _) ?_
    intro x hx hx1
    simp only [List.mem_singleton] at hx1
    exact hnot (hx1 ▸ hx)
  have hlast : ((eraseFirstByPath history a.path) ++ [a]).getLast? = some a :=
    getLast?_append_singleton _ _
  simp only [addToHistory]
  by_cases hlen : 50 < ((eraseFirstByPath history a.path) ++ [a]).length
  · rw [if_pos hlen]
    have hk : ((eraseFirstByPath history a.path) ++ [a]).length - 50 ≤
        (eraseFirstByPath history a.path).length := by
      simp only [List.length_append, List.length_cons, List.length_nil] at hlen ⊢
      omega
    refine ⟨?_, ?_, ?_⟩
    · have hdropsub : (sliceLast 50 ((eraseFirstByPath history a.path) ++ [a])).Sublist
          ((eraseFirstByPath history a.path) ++ [a]) := List.drop_sublist _ _
      exact (hdropsub.map AudioInfo.path).nodup hndp
    · unfold sliceLast
      rw [List.drop_append_of_le_length hk]
      exact getLast?_append_singleton _ _
    · unfold sliceLast
      rw [List.length_drop]
      omega
  · rw [if_neg hlen]
    exact ⟨hndp, hlast, by omega⟩

/-- Witness for C2: adding a second track to a singleton history with a
distinct path keeps paths deduplicated, puts the new track last and stays
within the 50-entry cap. -/
theorem c2_add_to_history_witness :
    ((addToHistory [demoTrack] demoTrackB).map AudioInfo.path).Nodup ∧
    (addToHistory [demoTrack] demoTrackB).getLast? = some demoTrackB ∧
    (addToHistory [demoTrack] demoTrackB).length ≤ 50 :=
  c2_add_to_history [demoTrack] demoTrackB (by decide)

/-! ## C3: progress_update throttling -/

theorem progressStep_skip (st : PlayerUiState) (now : Nat) (snap : ProgressSnapshot)
    (h : now - st.lastUpdated < updateInterval) : progressStep st now snap = st := by
  simp [progressStep, h]

theorem progressStep_lastUpdated (st : PlayerUiState) (now : Nat)
    (snap : ProgressSnapshot) (h : ¬now - st.lastUpdated < updateInterval) :
    (progressStep st now snap).lastUpdated = now := by
  simp [progressStep, h]

theorem appliedEvents_spacing (evs : List (Nat × ProgressSnapshot)) :
    ∀ st : PlayerUiState,
      (∀ e ∈ appliedEvents st evs, st.lastUpdated + updateInterval ≤ e.1) ∧
      List.Chain' (fun a b : Nat × ProgressSnapshot => a.1 + updateInterval ≤ b.1)
        (appliedEvents st evs) := by
  induction evs with
  | nil => exact fun st => ⟨by simp [appliedEvents], by simp [appliedEvents]⟩
  | cons e rest ih =>
      intro st
      by_cases h : e.1 - st.lastUpdated < updateInterval
      · simpa only [appliedEvents, if_pos h] using ih st
      · have h330 : ¬e.1 - st.lastUpdated < 330 := h
        have hle : st.lastUpdated + 330 ≤ e.1 := by omega
        have hlast : (progressStep st e.1 e.2).lastUpdated = e.1 :=
          progressStep_lastUpdated st e.1 e.2 h
        obtain ⟨ihmem, ihchain⟩ := ih (progressStep st e.1 e.2)
        constructor
        · intro x hx
          simp only [appliedEvents, if_neg h, List.mem_cons] at hx
          rcases hx with rfl | hx
          · exact hle
          · have hx2 := ihmem x hx
            rw [hlast] at hx2
            have hx3 : e.1 + 330 ≤ x.1 := hx2
            show st.lastUpdated + 330 ≤ x.1
            omega
        · simp only [appliedEvents, if_neg h]
          refine List.chain'_cons'.mpr ⟨?_, ihchain⟩
          intro b hb
          have hbmem := ihmem b (List.mem_of_mem_head? hb)
          rw [hlast] at hbmem
          exact hbmem

/-- C3 counterexample: two progress_update snapshots processed 10 ms
apart (far faster than the 330 ms tick) from the initial player state;
the first one is applied and the later, latest one is dropped, so the
latest snapshot does not take effect, contradicting the coalescing
claim. -/
theorem c3_latest_snapshot_dropped :
    (progressRun playerUiInit demoFastRun).progress = some demoSnapA.progress_percent ∧
    demoSnapA.progress_percent ≠ demoSnapB.progress_percent ∧
    (progressRun playerUiInit demoFastRun).progress ≠ some demoSnapB.progress_percent := by
  refine ⟨by decide, by decide, by decide⟩

/-- C3 (amended): progress_update snapshots are applied at most once per
330 ms (consecutive applied snapshots are at least updateInterval apart),
and a snapshot that arrives within 330 ms of the last applied one is
discarded outright, leaving the player state unchanged; a snapshot beyond
the window is applied with its own progress value (when automatic updates
are not paused), so the first snapshot after each window takes effect,
not the latest of a burst. -/
theorem c3_throttle_amended :
    (∀ (st : PlayerUiState) (evs : List (Nat × ProgressSnapshot)),
      List.Chain' (fun a b : Nat × ProgressSnapshot => a.1 + updateInterval ≤ b.1)
        (appliedEvents st evs)) ∧
    (∀ (st : PlayerUiState) (now : Nat) (snap : ProgressSnapshot),
      now - st.lastUpdated < updateInterval → progressStep st now snap = st) ∧
    (∀ (st : PlayerUiState) (now : Nat) (snap : ProgressSnapshot),
      ¬now - st.lastUpdated < updateInterval →
      st.pauseAutomaticWsProgressUpdate = false →
      (progressStep st now snap).progress = some snap.progress_percent) := by
  refine ⟨fun st evs => (appliedEvents_spacing evs st).2, progressStep_skip, ?_⟩
  intro st now snap h hp
  simp [progressStep, h, hp]

/-- Witness for C3 (amended): on the fast run the applied snapshots are
properly spaced, and the second snapshot, 10 ms after the first applied
one, is discarded. -/
theorem c3_throttle_amended_witness :
    List.Chain' (fun a b : Nat × ProgressSnapshot => a.1 + updateInterval ≤ b.1)
      (appliedEvents playerUiInit demoFastRun) ∧
    progressStep (progressRun playerUiInit [(1000, demoSnapA)]) 1010 demoSnapB =
      progressRun playerUiInit [(1000, demoSnapA)] := by
  constructor
  · exact c3_throttle_amended.1 playerUiInit demoFastRun
  · exact c3_throttle_amended.2.1 _ 1010 demoSnapB (by decide)

/-! ## C5: library.bin rewrite condition -/

/-- C5 counterexample: with a stored empty-string lastLibbinHash and an
equal computed hash the code rewrites library.bin (the JS falsy test
treats the empty string as no hash), although the claimed condition (no
stored hash, or computed hash differing from the stored one) is false. -/
theorem c5_rewrite_on_empty_hash :
    (refreshWritefile (some "") "").1 = true ∧
    ¬((some "" : Option String) = none ∨ "" ≠ "") := by
  exact ⟨rfl, by simp⟩

/-- C5 (amended): when refreshing audio metadata with writefile enabled,
library.bin is rewritten if and only if the stored lastLibbinHash is
absent or empty, or the hash computed over the current metadata differs
from it; whenever it is rewritten, lastLibbinHash is updated to the newly
computed hash. -/
theorem c5_libbin_rewrite_iff (storedHash : Option String) (computedHash : String) :
    ((refreshWritefile storedHash computedHash).1 = true ↔
      storedHash = none ∨ storedHash = some "" ∨
        ∃ s, storedHash = some s ∧ computedHash ≠ s) ∧
    ((refreshWritefile storedHash computedHash).1 = true →
      (refreshWritefile storedHash computedHash).2 = some computedHash) := by
  match storedHash with
  | none => exact ⟨by simp [refreshWritefile], fun _ => rfl⟩
  | some s =>
      by_cases hs : s = ""
      · subst hs
        exact ⟨by simp [refreshWritefile], fun _ => rfl⟩
      · by_cases hc : computedHash = s
        · subst hc
          constructor
          · simp [refreshWritefile, hs]
          · intro h
            simp [refreshWritefile, hs] at h
        · constructor
          · simp [refreshWritefile, hs, hc]
          · intro _
            simp [refreshWritefile, hs, hc]

/-- Witness for C5 (amended): with stored hash abc and computed hash xyz
the cache is rewritten and the stored hash becomes xyz. -/
theorem c5_libbin_rewrite_iff_witness :
    (refreshWritefile (some "abc") "xyz").1 = true ∧
    (refreshWritefile (some "abc") "xyz").2 = some "xyz" := by
  have h := c5_libbin_rewrite_iff (some "abc") "xyz"
  have h1 : (refreshWritefile (some "abc") "xyz").1 = true :=
    h.1.mpr (Or.inr (Or.inr ⟨"abc", rfl, by decide⟩))
  exact ⟨h1, h.2 h1⟩

/-! ## C6: load_audio request fields -/

/-- C6: Every load_audio request issued on selecting an audio track
carries the required fields: the file_path of the selected track, the
device_name of the selected (non-empty-named) device and the AO channel
list, and its DO channel set is exactly the two default lines
port0/line0 and port0/line1 (written device-relative with a leading
slash). -/
theorem c6_load_audio_fields (data : Option AudioInfo) (deviceName : Option String)
    (isPlaying : Bool) (volume : Nat) (flipLRStereo : Bool) (d : LoadAudioData)
    (hmem : PlayerRequest.loadAudio d ∈
      handleAudioTrackSelect data deviceName isPlaying volume flipLRStereo) :
    (∃ a : AudioInfo, data = some a ∧ d.file_path = a.path) ∧
    deviceName = some d.device_name ∧ d.device_name ≠ "" ∧
    d.ao_channels = defaultAoChannels ∧
    d.do_channels = ["/port0/line0", "/port0/line1"] := by
  match data with
  | none => simp [handleAudioTrackSelect] at hmem
  | some a =>
      match deviceName with
      | none => simp [handleAudioTrackSelect] at hmem
      | some nm =>
          by_cases hnm : nm = ""
          · simp [handleAudioTrackSelect, hnm] at hmem
          · cases isPlaying <;>
              · simp [handleAudioTrackSelect, hnm] at hmem
                subst hmem
                exact ⟨⟨a, rfl, rfl⟩, rfl, hnm, rfl, rfl⟩

/-- Witness for C6: selecting the demo track with device Dev1 issues a
load_audio request whose DO channels are the two default lines. -/
theorem c6_load_audio_fields_witness :
    (PlayerRequest.loadAudio
        { device_name := "Dev1"
          file_path := demoTrack.path
          ao_channels := defaultAoChannels
          ai_channels := []
          do_channels := defaultDoChannels
          volume := 80
          samples_per_frame := 8192
          flip_lr_stereo := false } ∈
      handleAudioTrackSelect (some demoTrack) (some "Dev1") false 80 false) ∧
    ([ "/port0/line0", "/port0/line1" ] : List String) =
      ["/port0/line0", "/port0/line1"] := by
  have hmem : PlayerRequest.loadAudio
      { device_name := "Dev1"
        file_path := demoTrack.path
        ao_channels := defaultAoChannels
        ai_channels := []
        do_channels := defaultDoChannels
        volume := 80
        samples_per_frame := 8192
        flip_lr_stereo := false } ∈
      handleAudioTrackSelect (some demoTrack) (some "Dev1") false 80 false := by
    simp [handleAudioTrackSelect, defaultAoChannels, defaultDoChannels]
  exact ⟨hmem, (c6_load_audio_fields _ _ _ _ _ _ hmem).2.2.2.2 ▸ rfl⟩

/-! ## C9: getCurrentChapter edge behavior -/

/-- C9: For a non-empty chapter list and positive duration,
getCurrentChapter returns the first chapter whenever the progress is null
or 0 (even if that first chapter starts after the current position 0),
and returns null for any non-zero progress whose corresponding time is
strictly before the first chapter timestamp. -/
theorem c9_current_chapter (info : AudioInfo) (c : AudioChapterInfo)
    (cs : List AudioChapterInfo) (hch : info.chapters = some (c :: cs))
    (dur : ℚ) (hd : 0 < dur) :
    getCurrentChapter (some info) (some dur) none = some (0, c.timestamp, c.title) ∧
    getCurrentChapter (some info) (some dur) (some 0) =
      some (0, c.timestamp, c.title) ∧
    ∀ p : ℚ, p ≠ 0 → p / 100 * dur < c.timestamp →
      getCurrentChapter (some info) (some dur) (some p) = none := by
  have hne : ¬dur = 0 := ne_of_gt hd
  refine ⟨?_, ?_, ?_⟩
  · simp [getCurrentChapter, hch, hne]
  · simp [getCurrentChapter, hch, hne]
  · intro p hp hlt
    simp [getCurrentChapter, hch, hne, hp, List.findIdx?_cons, hlt]

/-- Witness for C9: the demo track has one chapter at 5 s and duration
30 s; with null progress the first chapter is returned although its
timestamp 5 is after position 0, and with progress 2 percent (0.6 s,
before the chapter) null is returned. -/
theorem c9_current_chapter_witness :
    getCurrentChapter (some demoTrack) (some 30) none = some (0, 5, "Intro") ∧
    getCurrentChapter (some demoTrack) (some 30) (some 2) = none := by
  have h := c9_current_chapter demoTrack
      { timestamp := 5, title := "Intro", description := none } []
      rfl 30 (by norm_num)
  exact ⟨h.1, h.2.2 2 (by norm_num) (by norm_num)⟩

/-! ## C10: cleanupHistory -/

/-- C10: After cleanupHistory with a non-null current list, every
surviving history entry has a path occurring in the current list and the
survivors keep their relative order (the result is a sublist of the old
history); a null current list clears the history entirely. -/
theorem c10_cleanup_history (history currentAudioInfoList : Option (List AudioInfo)) :
    (currentAudioInfoList = none → cleanupHistory history currentAudioInfoList = none) ∧
    (∀ h cur, history = some h → currentAudioInfoList = some cur →
      ∃ r, cleanupHistory history currentAudioInfoList = some r ∧
        r.Sublist h ∧ ∀ info ∈ r, ∃ c ∈ cur, c.path = info.path) := by
  constructor
  · rintro rfl
    cases history <;> rfl
  · rintro h cur rfl rfl
    refine ⟨_, rfl, List.filter_sublist h, ?_⟩
    intro info hinfo
    have hp := List.of_mem_filter hinfo
    simpa [List.any_eq_true] using hp

/-- Witness for C10: cleaning a two-entry history against a current list
holding only the first entry keeps exactly entries whose path is in the
current list, in order, and a null current list clears the history. -/
theorem c10_cleanup_history_witness :
    cleanupHistory (some [demoTrack, demoTrackB]) none = none ∧
    ∃ r, cleanupHistory (some [demoTrack, demoTrackB]) (some [demoTrack]) = some r ∧
      r.Sublist [demoTrack, demoTrackB] ∧
      ∀ info ∈ r, ∃ c ∈ [demoTrack], c.path = info.path :=
  ⟨(c10_cleanup_history (some [demoTrack, demoTrackB]) none).1 rfl,
   (c10_cleanup_history (some [demoTrack, demoTrackB]) (some [demoTrack])).2
     [demoTrack, demoTrackB] [demoTrack] rfl rfl⟩

end NidaqPlayer
